import Mathlib

/-!
Verification of the reverie syscall-interception engine (Rust) against its
natural-language specification.  The Rust sources under scrutiny are
src/src/remote.rs, src/src/traced_task.rs, src/reverie/src/stubs.rs and
src/reverie-common/src/consts.rs.  Machine integers (u64 / i64 / usize) are
modelled as Nat / Int with explicit reduction modulo 2^64 at the points where
the Rust code can wrap.  Stateful tracer operations are modelled as pure
functions on an explicit task state that additionally emit a trace of the
side effects (mprotect / mmap injections, pokes and register writes)
performed on the tracee.
-/

namespace Reverie

/-- Modulus of 64-bit machine integers. -/
def U64 : Nat := 2 ^ 64

/-- Constant SYSCALL_INSN_SIZE from reverie-common/src/consts.rs: the x86-64
syscall instruction 0f 05 is two bytes long. -/
def SYSCALL_INSN_SIZE : Nat := 2

/-- Constant REVERIE_PRIVATE_PAGE_OFFSET from reverie-common/src/consts.rs,
also appearing literally in traced_task.rs (injected_mmap_page, gadget
addresses 0x7000_0008 / 0x7000_0010). -/
def REVERIE_PRIVATE_PAGE_OFFSET : Nat := 0x70000000

/-- PROT_READ flag of mprotect. -/
def PROT_READ : Nat := 1

/-- PROT_WRITE flag of mprotect. -/
def PROT_WRITE : Nat := 2

/-- PROT_EXEC flag of mprotect. -/
def PROT_EXEC : Nat := 4

/-- Tracee registers used by the tracer (libc user_regs_struct fields the
source reads or writes). -/
structure Regs where
  rip : Nat
  rax : Nat
  orig_rax : Nat
  rdi : Nat
  rsi : Nat
  rdx : Nat
  r10 : Nat
  r8 : Nat
  r9 : Nat
deriving Repr, DecidableEq

/-- Syscall hook record from the helper library catalog (hooks::SyscallHook
as used by remote.rs and stubs.rs: the field instructions holds the prologue
byte pattern, offset the entry offset inside the helper library). -/
structure SyscallHook where
  instructions : List Nat
  offset : Nat
deriving Repr, DecidableEq, BEq

/-- One allocated stub page region (struct SyscallStubPage in remote.rs). -/
structure SyscallStubPage where
  address : Nat
  size : Nat
  allocated : Nat
deriving Repr, DecidableEq

/-- Side effect performed on the tracee: injected syscalls, remote memory
writes and register writes.  Reads are pure in the model and not traced. -/
inductive Effect where
  | mprotect (addr len prot : Nat)
  | mmap (addr len : Nat)
  | poke (addr : Nat) (bytes : List Nat)
  | setregs (r : Regs)
  | singlestep
deriving Repr, DecidableEq

/-- Reinterpret a u64 bit pattern as an i64 (two's complement), as the Rust
casts target as i64 / ip as i64 do in patch_at. -/
def toI64 (x : Nat) : Int :=
  if x % U64 < 2 ^ 63 then ((x % U64 : Nat) : Int)
  else ((x % U64 : Nat) : Int) - (U64 : Int)

/-- Displacement computed by patch_at (remote.rs line 146):
rela = target as i64 - ip as i64 - 5. -/
def patch_rela (target ip : Nat) : Int :=
  toI64 target - toI64 ip - 5

/-- Byte k (k < 4) pushed by patch_at for the rel32 displacement:
(rela.wrapping_shr(8 k) and 0xff) as u8, which for k < 4 is byte k of the
two's complement representation, i.e. of rela mod 2^32. -/
def relaByte (rela : Int) (k : Nat) : Nat :=
  (rela % (2 ^ 32 : Int)).toNat / 2 ^ (8 * k) % 2 ^ 8

/-- Canonical long-NOP encodings emitted by the match on padding_size in
patch_at (remote.rs lines 162-226).  The source panics for padding above 9;
the model returns the empty list there, and every theorem stays inside the
asserted range. -/
def nop_bytes : Nat → List Nat
  | 0 => []
  | 1 => [0x90]
  | 2 => [0x66, 0x90]
  | 3 => [0x0f, 0x1f, 0x00]
  | 4 => [0x0f, 0x1f, 0x40, 0x00]
  | 5 => [0x0f, 0x1f, 0x44, 0x00, 0x00]
  | 6 => [0x66, 0x0f, 0x1f, 0x44, 0x00, 0x00]
  | 7 => [0x0f, 0x1f, 0x80, 0x00, 0x00, 0x00, 0x00]
  | 8 => [0x0f, 0x1f, 0x84, 0x00, 0x00, 0x00, 0x00, 0x00]
  | 9 => [0x66, 0x0f, 0x1f, 0x84, 0x00, 0x00, 0x00, 0x00, 0x00]
  | _ => []

/-- Replacement byte sequence assembled by patch_at: the 0xe8 opcode, the
four little-endian displacement bytes, then the NOP padding whose length is
SYSCALL_INSN_SIZE + prologue length - 5 (usize arithmetic; the subtraction
is well defined for prologue length at least 3, which every theorem
assumes). -/
def patch_bytes (hookLen : Nat) (rela : Int) : List Nat :=
  0xe8 :: [relaByte rela 0, relaByte rela 1, relaByte rela 2, relaByte rela 3]
    ++ nop_bytes (SYSCALL_INSN_SIZE + hookLen - 5)

/-- Page base of an address (addr and not 0xfff in the source). -/
def pageOf (a : Nat) : Nat := a - a % 0x1000

/-- The mprotect span chosen by patch_at (remote.rs line 230):
0x2000 when ((ip + patch_bytes.len()) and not 0xfff) < patch_bytes.len(),
else 0x1000.  The usize addition wraps modulo 2^64. -/
def mprotect_size (ip len : Nat) : Nat :=
  if pageOf ((ip + len) % U64) < len then 0x2000 else 0x1000

/-- Model of patch_at (remote.rs lines 137-258).  The io_ok flag stands for
success of the remote poke; on failure the function returns after the first
injected mprotect, mirroring an error from the Remote trait operations.
Output: the traced effects and the success flag. -/
def patch_at (regs : Regs) (hook : SyscallHook) (target : Nat) (io_ok : Bool) :
    List Effect × Bool :=
  let ip := (regs.rip + U64 - SYSCALL_INSN_SIZE) % U64
  let rela := patch_rela target ip
  let pb := patch_bytes hook.instructions.length rela
  let page := pageOf ip
  let size := mprotect_size ip pb.length
  if io_ok then
    ([Effect.mprotect page size PROT_WRITE,
      Effect.poke ip pb,
      Effect.mprotect page size (PROT_READ ||| PROT_EXEC),
      Effect.setregs { regs with rax := regs.orig_rax, rip := ip }], true)
  else
    ([Effect.mprotect page size PROT_WRITE], false)

/-- Little-endian byte decomposition of a 32-bit value, the form in which
the specification states the rel32 field. -/
def leBytes32 (x : Nat) : List Nat :=
  [x % 2 ^ 8, x / 2 ^ 8 % 2 ^ 8, x / 2 ^ 16 % 2 ^ 8, x / 2 ^ 24 % 2 ^ 8]

theorem toI64_emod_pow32 (x : Nat) (hx : x < U64) :
    toI64 x % (2 ^ 32 : Int) = (x : Int) % (2 ^ 32 : Int) := by
  unfold toI64
  rw [Nat.mod_eq_of_lt hx]
  split
  · rfl
  · unfold U64; push_cast; omega

theorem patch_rela_emod (target ip : Nat) (ht : target < U64) (hip : ip < U64) :
    patch_rela target ip % (2 ^ 32 : Int)
      = ((target : Int) - (ip : Int) - 5) % (2 ^ 32 : Int) := by
  have h1 : Int.ModEq (2 ^ 32) (toI64 target) target := toI64_emod_pow32 target ht
  have h2 : Int.ModEq (2 ^ 32) (toI64 ip) ip := toI64_emod_pow32 ip hip
  exact (h1.sub h2).sub (Int.ModEq.refl 5)

theorem relaBytes_eq_leBytes32 (rela : Int) (v : Int)
    (h : rela % (2 ^ 32 : Int) = v % (2 ^ 32 : Int)) :
    [relaByte rela 0, relaByte rela 1, relaByte rela 2, relaByte rela 3]
      = leBytes32 (v % (2 ^ 32 : Int)).toNat := by
  unfold relaByte leBytes32
  rw [h]
  norm_num

theorem nop_bytes_length (n : Nat) (h : n ≤ 9) : (nop_bytes n).length = n := by
  interval_cases n <;> rfl

/-- C1: for every syscall hook whose prologue has length L (inside the range
the source asserts: the usize padding 2 + L - 5 is well defined and at most
9) and every 64-bit stub target address, patch_at pokes exactly 2 + L
replacement bytes at the site address rip - 2: the opcode 0xe8, then the
little-endian 32-bit value target - (rip - 2) - 5 reduced modulo 2^32, then
the canonical long-NOP encoding of length (2 + L) - 5 from the padding
table. -/
theorem patch_at_replacement_bytes (regs : Regs) (hook : SyscallHook) (target : Nat)
    (h2 : 2 ≤ regs.rip) (hrip : regs.rip < U64) (ht : target < U64)
    (hL3 : 3 ≤ hook.instructions.length) (hL : hook.instructions.length ≤ 12) :
    (patch_at regs hook target true).1.get? 1
      = some (Effect.poke (regs.rip - 2)
          (patch_bytes hook.instructions.length (patch_rela target (regs.rip - 2)))) ∧
    patch_bytes hook.instructions.length (patch_rela target (regs.rip - 2))
      = 0xe8 :: (leBytes32 ((((target : Int) - ((regs.rip - 2 : Nat) : Int) - 5)
            % (2 ^ 32 : Int)).toNat)
          ++ nop_bytes (SYSCALL_INSN_SIZE + hook.instructions.length - 5)) ∧
    (patch_bytes hook.instructions.length (patch_rela target (regs.rip - 2))).length
      = SYSCALL_INSN_SIZE + hook.instructions.length ∧
    SYSCALL_INSN_SIZE + hook.instructions.length - 5 ≤ 9 := by
  have hipeq : (regs.rip + U64 - SYSCALL_INSN_SIZE) % U64 = regs.rip - 2 := by
    unfold U64 SYSCALL_INSN_SIZE at *
    omega
  have hiplt : regs.rip - 2 < U64 := by
    unfold U64 at *
    omega
  have hpad : SYSCALL_INSN_SIZE + hook.instructions.length - 5 ≤ 9 := by
    unfold SYSCALL_INSN_SIZE
    omega
  refine ⟨?_, ?_, ?_, hpad⟩
  · simp only [patch_at, hipeq, List.get?]
  · unfold patch_bytes
    rw [relaBytes_eq_leBytes32 (patch_rela target (regs.rip - 2))
      ((target : Int) - ((regs.rip - 2 : Nat) : Int) - 5)
      (patch_rela_emod target (regs.rip - 2) ht hiplt)]
    simp
  · unfold patch_bytes
    simp only [List.length_cons, List.length_append, List.length_cons,
      List.length_nil, nop_bytes_length _ hpad]
    unfold SYSCALL_INSN_SIZE at *
    omega

/-- Witness for patch_at_replacement_bytes at a concrete hook of prologue
length 3, site rip = 0x401002 and stub target 0x500000. -/
theorem patch_at_replacement_bytes_witness :
    (2 ≤ 0x401002 ∧ (0x401002 : Nat) < U64 ∧ (0x500000 : Nat) < U64) ∧
    ((patch_at ⟨0x401002, 0, 0, 0, 0, 0, 0, 0, 0⟩ ⟨[0x48, 0x89, 0xc3], 0x1234⟩ 0x500000 true).1.get? 1
      = some (Effect.poke (0x401002 - 2)
          (patch_bytes (([0x48, 0x89, 0xc3] : List Nat)).length
            (patch_rela 0x500000 (0x401002 - 2)))) ∧
    patch_bytes (([0x48, 0x89, 0xc3] : List Nat)).length (patch_rela 0x500000 (0x401002 - 2))
      = 0xe8 :: (leBytes32 ((((0x500000 : Int) - (((0x401002 : Nat) - 2 : Nat) : Int) - 5)
            % (2 ^ 32 : Int)).toNat)
          ++ nop_bytes (SYSCALL_INSN_SIZE + (([0x48, 0x89, 0xc3] : List Nat)).length - 5)) ∧
    (patch_bytes (([0x48, 0x89, 0xc3] : List Nat)).length (patch_rela 0x500000 (0x401002 - 2))).length
      = SYSCALL_INSN_SIZE + (([0x48, 0x89, 0xc3] : List Nat)).length ∧
    SYSCALL_INSN_SIZE + (([0x48, 0x89, 0xc3] : List Nat)).length - 5 ≤ 9) :=
  ⟨⟨by decide, by decide, by decide⟩,
    patch_at_replacement_bytes ⟨0x401002, 0, 0, 0, 0, 0, 0, 0, 0⟩
      ⟨[0x48, 0x89, 0xc3], 0x1234⟩ 0x500000
      (by decide) (by decide) (by decide) (by decide) (by decide)⟩

/-- C3: the cross-page condition in patch_at is wrong.  At the concrete
site rip - 2 = 0x1ffe (page offset 0xffe) with a 4-byte prologue the 6
replacement bytes cross the page boundary at 0x2000, yet the injected
mprotect spans only 0x1000 bytes, not the 0x2000 the specification requires;
the restoring mprotect uses the same too-small span. -/
theorem patch_at_crosspage_span_bug :
    (patch_at ⟨0x2000, 0, 0, 0, 0, 0, 0, 0, 0⟩ ⟨[0xAA, 0xBB, 0xCC, 0xDD], 0⟩ 0x3000 true).1.get? 0
      = some (Effect.mprotect 0x1000 0x1000 PROT_WRITE) ∧
    (patch_at ⟨0x2000, 0, 0, 0, 0, 0, 0, 0, 0⟩ ⟨[0xAA, 0xBB, 0xCC, 0xDD], 0⟩ 0x3000 true).1.get? 2
      = some (Effect.mprotect 0x1000 0x1000 (PROT_READ ||| PROT_EXEC)) ∧
    pageOf 0x1ffe ≠ pageOf (0x1ffe + 6 - 1) := by
  refine ⟨by decide, by decide, by decide⟩

/-! Remote syscall injection (remote_do_syscall_at, traced_task.rs lines
536-589).  The kernel side of the injected syscall is abstracted by the
raxAfter oracle: the value found in rax once the gadget hits its int3
breakpoint.  The model returns the trace of register writes together with
the Ok / Err classification the source computes. -/

/-- Model of remote_do_syscall_at: snapshot the registers, load the syscall
number into orig_rax and rax, the six arguments into the SysV argument
registers, point rip at the gadget, resume, and after the trap restore the
snapshot; the result is an error with errno -rax exactly when the observed
rax, read as a u64, is strictly above -4096 as u64. -/
def remote_do_syscall_at (regs : Regs) (rip : Nat) (no : Nat)
    (a0 a1 a2 a3 a4 a5 : Nat) (raxAfter : Nat) : List Effect × Except Nat Nat :=
  let oldregs := regs
  let regs' : Regs := ⟨rip, no, no, a0, a1, a2, a3, a4, a5⟩
  let res : Except Nat Nat :=
    if raxAfter % U64 > U64 - 4096 then Except.error (U64 - raxAfter % U64)
    else Except.ok (raxAfter % U64)
  ([Effect.setregs regs', Effect.singlestep, Effect.setregs oldregs], res)

/-- The untraced-syscall entry (RemoteSyscall impl): the gadget at
0x7000_0008. -/
def untraced_syscall (regs : Regs) (no a0 a1 a2 a3 a4 a5 raxAfter : Nat) :
    List Effect × Except Nat Nat :=
  remote_do_syscall_at regs 0x70000008 no a0 a1 a2 a3 a4 a5 raxAfter

/-- The traced-syscall entry (RemoteSyscall impl): the gadget at
0x7000_0010. -/
def traced_syscall (regs : Regs) (no a0 a1 a2 a3 a4 a5 raxAfter : Nat) :
    List Effect × Except Nat Nat :=
  remote_do_syscall_at regs 0x70000010 no a0 a1 a2 a3 a4 a5 raxAfter

/-- C5 counterexample: with rax = -4096 (as u64) after the gadget, the
injection returns Ok(-4096), not an error, because the source tests
rax strictly greater than -4096 as u64; so the claimed error interval
[-4096, -1] is wrong at its left endpoint. -/
theorem remote_syscall_neg4096_is_ok :
    (remote_do_syscall_at ⟨0, 0, 0, 0, 0, 0, 0, 0, 0⟩ 0x70000008 9 0 0 0 0 0 0
        (U64 - 4096)).2 = Except.ok (U64 - 4096) := by
  have hc : ¬((U64 - 4096) % U64 > U64 - 4096) := by unfold U64; decide
  simp [remote_do_syscall_at, hc]

/-- C5 amended: after the gadget returns, an rax value in [-4095, -1] (as
u64) is surfaced as an error carrying errno -rax, any other value as
Ok(rax); and the last register write of the injection restores the snapshot
taken before it. -/
theorem remote_syscall_result_spec (regs : Regs) (rip no a0 a1 a2 a3 a4 a5 rax : Nat)
    (h : rax < U64) :
    (U64 - 4095 ≤ rax →
      (remote_do_syscall_at regs rip no a0 a1 a2 a3 a4 a5 rax).2
        = Except.error (U64 - rax)) ∧
    (rax < U64 - 4095 →
      (remote_do_syscall_at regs rip no a0 a1 a2 a3 a4 a5 rax).2
        = Except.ok rax) ∧
    (remote_do_syscall_at regs rip no a0 a1 a2 a3 a4 a5 rax).1.getLast?
      = some (Effect.setregs regs) := by
  have hm : rax % U64 = rax := Nat.mod_eq_of_lt h
  refine ⟨?_, ?_, by simp [remote_do_syscall_at]⟩
  · intro hge
    have hcond : U64 - 4096 < rax := by unfold U64 at *; omega
    simp [remote_do_syscall_at, hcond, hm]
  · intro hlt
    have hcond : ¬(U64 - 4096 < rax) := by unfold U64 at *; omega
    simp [remote_do_syscall_at, hcond, hm]

/-- Witness for remote_syscall_result_spec: rax = -22 as u64 yields the
errno-22 error and the final register write restores the snapshot. -/
theorem remote_syscall_result_spec_witness :
    (U64 - 22 < U64) ∧
    ((U64 - 4095 ≤ U64 - 22 →
      (remote_do_syscall_at ⟨1, 2, 3, 4, 5, 6, 7, 8, 9⟩ 0x70000010 9 11 12 13 14 15 16
          (U64 - 22)).2 = Except.error (U64 - (U64 - 22))) ∧
    (U64 - 22 < U64 - 4095 →
      (remote_do_syscall_at ⟨1, 2, 3, 4, 5, 6, 7, 8, 9⟩ 0x70000010 9 11 12 13 14 15 16
          (U64 - 22)).2 = Except.ok (U64 - 22)) ∧
    (remote_do_syscall_at ⟨1, 2, 3, 4, 5, 6, 7, 8, 9⟩ 0x70000010 9 11 12 13 14 15 16
        (U64 - 22)).1.getLast? = some (Effect.setregs ⟨1, 2, 3, 4, 5, 6, 7, 8, 9⟩)) :=
  ⟨by decide,
    remote_syscall_result_spec ⟨1, 2, 3, 4, 5, 6, 7, 8, 9⟩ 0x70000010 9 11 12 13 14 15 16
      (U64 - 22) (by decide)⟩

/-! Gadget page generation (gen_syscall_sequences_at, remote.rs lines
351-376) and the byte-granular poke (poke_bytes, traced_task.rs lines
452-482). -/

/-- The three u64 words the source writes at the private page, one
ptrace(POKEDATA) word write each (remote.rs line 366). -/
def syscall_stub : List Nat :=
  [0x90c3050f90c3050f, 0x9066ccfffffff3e8, 0x9066ccffffffefe8]

/-- Model of gen_syscall_sequences_at: the sequence of 8-byte word writes
(address, word) it performs, in order. -/
def gen_syscall_sequences_at (page_address : Nat) : List (Nat × Nat) :=
  syscall_stub.enum.map (fun ks => (ks.1 * 8 + page_address, ks.2))

/-- Byte k of a 64-bit little-endian word. -/
def wordByte (w k : Nat) : Nat := w / 2 ^ (8 * k) % 2 ^ 8

/-- Apply one 8-byte word write to a byte-addressed memory. -/
def pokeWord (mem : Nat → Nat) (aw : Nat × Nat) : Nat → Nat :=
  fun a => if aw.1 ≤ a ∧ a < aw.1 + 8 then wordByte aw.2 (a - aw.1) else mem a

/-- Apply a sequence of word writes in order. -/
def run_pokes (mem : Nat → Nat) (ws : List (Nat × Nat)) : Nat → Nat :=
  ws.foldl pokeWord mem

/-- C9: after tracee_preinit runs gen_syscall_sequences_at on the private
page 0x7000_0000, the 24 gadget bytes there are exactly
0f 05 c3 90 / 0f 05 c3 90 / e8 f3 ff ff ff cc 66 90 /
e8 ef ff ff ff cc 66 90, and they are produced by exactly three 8-byte
POKEDATA word writes at 0x7000_0000, 0x7000_0008 and 0x7000_0010. -/
theorem gadget_page_bytes (mem : Nat → Nat) :
    (List.range 24).map
        (fun i => run_pokes mem (gen_syscall_sequences_at REVERIE_PRIVATE_PAGE_OFFSET)
          (REVERIE_PRIVATE_PAGE_OFFSET + i))
      = [0x0f, 0x05, 0xc3, 0x90, 0x0f, 0x05, 0xc3, 0x90,
         0xe8, 0xf3, 0xff, 0xff, 0xff, 0xcc, 0x66, 0x90,
         0xe8, 0xef, 0xff, 0xff, 0xff, 0xcc, 0x66, 0x90] ∧
    (gen_syscall_sequences_at REVERIE_PRIVATE_PAGE_OFFSET).map Prod.fst
      = [0x70000000, 0x70000008, 0x70000010] := by
  exact ⟨rfl, rfl⟩

/-- Little-endian 64-bit word assembled from a byte source. -/
def wordFromBytes (f : Nat → Nat) : Nat :=
  (List.range 8).foldr (fun k acc => f k % 2 ^ 8 + 2 ^ 8 * acc) 0

/-- The behaviour claim C10 ascribes to poke_bytes for a sub-word write:
only the first n bytes of the existing word are replaced, the trailing
8 - n bytes survive. -/
def poke_word_claimed (orig : Nat) (bytes : List Nat) : Nat :=
  wordFromBytes (fun k => if k < bytes.length then bytes.getD k 0 else wordByte orig k)

/-- What the source actually computes for the word written back by
poke_bytes when bytes.len() is at most 8 (traced_task.rs line 462): the call
copy_nonoverlapping(bytes.as_ptr() as *const u64, u64_val_ptr, size) copies
size elements of type u64, i.e. 8 * size bytes, not size bytes.  For a
non-empty sub-word write the whole 8-byte local is therefore overwritten
with the slice bytes followed by whatever memory follows the slice; the oob
oracle supplies those out-of-bounds source bytes (the copy beyond the 8-byte
local for size above 1 is undefined behaviour and is not modelled). -/
def poke_word_code (orig : Nat) (bytes : List Nat) (oob : Nat → Nat) : Nat :=
  if bytes.length = 0 then orig
  else wordFromBytes (fun k => if k < bytes.length then bytes.getD k 0 else oob k)

/-- C10: a one-byte poke into an existing word 0x1122334455667788 must,
per the claim, leave bytes 1..7 unchanged (top byte 0x11); the code instead
fills them from memory beyond the slice (here the oracle says 0), so the
trailing bytes are clobbered. -/
theorem poke_bytes_subword_clobbers :
    wordByte (poke_word_code 0x1122334455667788 [0xAB] (fun _ => 0)) 7 = 0 ∧
    wordByte (poke_word_claimed 0x1122334455667788 [0xAB]) 7 = 0x11 ∧
    poke_word_claimed 0x1122334455667788 [0xAB] = 0x11223344556677AB := by
  refine ⟨by decide, by decide, by decide⟩

/-! Stub-page allocator (search_stub_page, remote.rs lines 262-309).  The
proc-maps view is a list of (base, end) ranges; u64 arithmetic that may wrap
is modelled explicitly. -/

/-- Wrapping u64 subtraction. -/
def wsub64 (a b : Nat) : Nat := (a % U64 + U64 - b % U64) % U64

/-- Wrapping u64 addition. -/
def wadd64 (a b : Nat) : Nat := (a + b) % U64

/-- Constant one_mb of search_stub_page. -/
def one_mb : Nat := 0x100000

/-- Constant almost_2gb of search_stub_page:
2u64.wrapping_shl(30) - 0x100000 = 2^31 - 2^20. -/
def almost_2gb : Nat := 2 ^ 31 - 0x100000

/-- Sentinel range pushed below the mappings: [1 MiB - 4 KiB, 1 MiB). -/
def low_sentinel : Nat × Nat := (one_mb - 0x1000, one_mb)

/-- Sentinel range appended above the mappings. -/
def high_sentinel : Nat × Nat := (0xffffffffffff8000, 0xfffffffffffff000)

/-- The filter_map body of search_stub_page on one adjacent pair of occupied
ranges ((x1, y1), (x2, y2)): the gap starts at y1 and has x2 - y1 bytes;
accept it when it is large enough and its start lies inside the almost-2GiB
window around the hint. -/
def gap_candidate (addr_hint pages : Nat) (p : (Nat × Nat) × (Nat × Nat)) :
    Option Nat :=
  if (pages * 0x1000) % U64 ≤ wsub64 p.2.1 p.1.2 then
    if p.1.2 ≤ addr_hint ∧ addr_hint ≤ wadd64 p.1.2 almost_2gb then some p.1.2
    else if addr_hint ≤ p.1.2 ∧
        wsub64 p.1.2 addr_hint ≤ wsub64 almost_2gb ((pages * 0x1000) % U64) then
      some p.1.2
    else none
  else none

/-- Model of search_stub_page: zip the occupied ranges extended with the two
sentinels, keep the acceptable gap starts, return the first. -/
def search_stub_page (mappings : List (Nat × Nat)) (addr_hint pages : Nat) :
    Option Nat :=
  (((low_sentinel :: mappings).zip (mappings ++ [high_sentinel])).filterMap
    (gap_candidate addr_hint pages)).head?

/-- Well-formedness of a proc-maps suffix: ranges are ordered, non-empty in
the weak sense base ≤ end, start at or after lo, and stay inside the x86-64
user address space (end at most 2^47). -/
def sortedFrom (lo : Nat) : List (Nat × Nat) → Prop
  | [] => True
  | be :: rest => lo ≤ be.1 ∧ be.1 ≤ be.2 ∧ be.2 ≤ 2 ^ 47 ∧ sortedFrom be.2 rest

/-- Well-formedness of the full proc-maps view: sorted and above 1 MiB,
which is what the kernel-provided /proc/pid/maps of a normal process
satisfies (the sentinels assume no mapping below 1 MiB). -/
def maps_wf (maps : List (Nat × Nat)) : Prop := sortedFrom one_mb maps

theorem sortedFrom_mem_bounds (lo : Nat) (l : List (Nat × Nat))
    (hs : sortedFrom lo l) :
    ∀ be ∈ l, lo ≤ be.1 ∧ be.1 ≤ be.2 ∧ be.2 ≤ 2 ^ 47 := by
  induction l generalizing lo with
  | nil => intro be hbe; cases hbe
  | cons m rest ih =>
    intro be hbe
    obtain ⟨h1, h2, h3, hrest⟩ := hs
    cases hbe with
    | head => exact ⟨h1, h2, h3⟩
    | tail _ hmem =>
      have := ih m.2 hrest be hmem
      exact ⟨le_trans (le_trans h1 h2) this.1, this.2.1, this.2.2⟩

theorem gap_candidate_start (addr_hint pages : Nat) (p : (Nat × Nat) × (Nat × Nat))
    (a : Nat) (h : gap_candidate addr_hint pages p = some a) : a = p.1.2 := by
  unfold gap_candidate at h
  split_ifs at h <;> simp_all

theorem gap_candidate_dist (addr_hint pages : Nat) (p : (Nat × Nat) × (Nat × Nat))
    (a : Nat) (hy : p.1.2 ≤ 2 ^ 47) (hn : pages * 0x1000 ≤ almost_2gb)
    (h : gap_candidate addr_hint pages p = some a) :
    a - addr_hint ≤ almost_2gb ∧ addr_hint - a ≤ almost_2gb := by
  have ha := gap_candidate_start addr_hint pages p a h
  subst ha
  unfold gap_candidate at h
  split_ifs at h with h1 h2 h3 <;>
    first
      | exact Option.noConfusion h
      | (unfold wsub64 wadd64 almost_2gb U64 at *; omega)

theorem gap_candidate_space (addr_hint pages : Nat) (p : (Nat × Nat) × (Nat × Nat))
    (a : Nat) (hy : p.1.2 ≤ 2 ^ 47) (hx : p.1.2 ≤ p.2.1) (hx2 : p.2.1 < U64)
    (hn : pages * 0x1000 ≤ almost_2gb)
    (h : gap_candidate addr_hint pages p = some a) :
    a + pages * 0x1000 ≤ p.2.1 := by
  have ha := gap_candidate_start addr_hint pages p a h
  subst ha
  unfold gap_candidate at h
  split_ifs at h with h1 h2 h3 <;>
    first
      | exact Option.noConfusion h
      | (unfold wsub64 wadd64 almost_2gb U64 at *; omega)

theorem search_stub_page_aux (maps : List (Nat × Nat)) (prev : Nat × Nat)
    (addr_hint pages addr : Nat)
    (hprev : prev.2 ≤ 2 ^ 47)
    (hs : sortedFrom prev.2 maps)
    (hn : pages * 0x1000 ≤ almost_2gb)
    (hf : (((prev :: maps).zip (maps ++ [high_sentinel])).filterMap
        (gap_candidate addr_hint pages)).head? = some addr) :
    prev.2 ≤ addr ∧
    (addr - addr_hint ≤ almost_2gb ∧ addr_hint - addr ≤ almost_2gb) ∧
    ∀ be ∈ maps, addr + pages * 0x1000 ≤ be.1 ∨ be.2 ≤ addr := by
  induction maps generalizing prev with
  | nil =>
    simp only [List.nil_append, List.zip_cons_cons, List.zip_nil_left,
      List.filterMap_cons] at hf
    cases hc : gap_candidate addr_hint pages (prev, high_sentinel) with
    | none => rw [hc] at hf; simp at hf
    | some a =>
      rw [hc] at hf
      simp only [List.filterMap_nil, List.head?_cons, Option.some.injEq] at hf
      subst hf
      have ha := gap_candidate_start addr_hint pages _ a hc
      refine ⟨le_of_eq ha.symm, gap_candidate_dist addr_hint pages _ a hprev hn hc, ?_⟩
      intro be hbe; cases hbe
  | cons m rest ih =>
    simp only [List.cons_append, List.zip_cons_cons, List.filterMap_cons] at hf
    obtain ⟨hm1, hm2, hm3, hrest⟩ := hs
    cases hc : gap_candidate addr_hint pages (prev, m) with
    | none =>
      rw [hc] at hf
      obtain ⟨hge, hdist, hdisj⟩ := ih m hm3 hrest hf
      refine ⟨le_trans (le_trans hm1 hm2) hge, hdist, ?_⟩
      intro be hbe
      cases hbe with
      | head => exact Or.inr hge
      | tail _ hmem => exact hdisj be hmem
    | some a =>
      rw [hc] at hf
      simp only [List.head?_cons, Option.some.injEq] at hf
      subst hf
      have ha := gap_candidate_start addr_hint pages _ a hc
      have hx2lt : m.1 < U64 :=
        lt_of_le_of_lt (le_trans hm2 hm3) (by unfold U64; norm_num)
      have hspace := gap_candidate_space addr_hint pages _ a hprev hm1 hx2lt hn hc
      refine ⟨le_of_eq ha.symm, gap_candidate_dist addr_hint pages _ a hprev hn hc, ?_⟩
      intro be hbe
      cases hbe with
      | head => exact Or.inl hspace
      | tail _ hmem =>
        have hb := sortedFrom_mem_bounds m.2 rest hrest be hmem
        exact Or.inl (le_trans hspace (le_trans hm2 hb.1))

/-- C4: whenever the stub-page allocator returns an address for hint h and
page count n (with n pages staying inside the almost-2GiB window, as at
every call site), the returned address is within 2^31 - 2^20 of h, and the
n-page region starting there is disjoint from every range in the well-formed
proc-maps view used for the search. -/
theorem search_stub_page_spec (maps : List (Nat × Nat)) (addr_hint pages addr : Nat)
    (hwf : maps_wf maps) (hn : pages * 0x1000 ≤ almost_2gb)
    (hret : search_stub_page maps addr_hint pages = some addr) :
    (addr - addr_hint ≤ 2 ^ 31 - 2 ^ 20 ∧ addr_hint - addr ≤ 2 ^ 31 - 2 ^ 20) ∧
    ∀ be ∈ maps, addr + pages * 0x1000 ≤ be.1 ∨ be.2 ≤ addr := by
  have h47 : low_sentinel.2 ≤ 2 ^ 47 := by unfold low_sentinel one_mb; norm_num
  have haux := search_stub_page_aux maps low_sentinel addr_hint pages addr h47 hwf hn hret
  have hgb : almost_2gb = 2 ^ 31 - 2 ^ 20 := by unfold almost_2gb; norm_num
  rw [hgb] at haux
  exact ⟨haux.2.1, haux.2.2⟩

/-- Witness for search_stub_page_spec: a one-entry maps view; the allocator
returns the gap start 0x100000 just above the low sentinel, within reach of
the hint and disjoint from the mapping. -/
theorem search_stub_page_spec_witness :
    (maps_wf [((0x400000 : Nat), (0x500000 : Nat))] ∧
      2 * 0x1000 ≤ almost_2gb ∧
      search_stub_page [((0x400000 : Nat), (0x500000 : Nat))] 0x400123 2 = some 0x100000) ∧
    (((0x100000 : Nat) - 0x400123 ≤ 2 ^ 31 - 2 ^ 20 ∧
        (0x400123 : Nat) - 0x100000 ≤ 2 ^ 31 - 2 ^ 20) ∧
      ∀ be ∈ [((0x400000 : Nat), (0x500000 : Nat))],
        0x100000 + 2 * 0x1000 ≤ be.1 ∨ be.2 ≤ 0x100000) := by
  have hwf : maps_wf [((0x400000 : Nat), (0x500000 : Nat))] := by
    unfold maps_wf
    exact ⟨by norm_num [one_mb], by norm_num, by norm_num, trivial⟩
  have hn : (2 : Nat) * 0x1000 ≤ almost_2gb := by unfold almost_2gb; norm_num
  have hret : search_stub_page [((0x400000 : Nat), (0x500000 : Nat))] 0x400123 2
      = some 0x100000 := by decide
  exact ⟨⟨hwf, hn, hret⟩,
    search_stub_page_spec [((0x400000 : Nat), (0x500000 : Nat))] 0x400123 2 0x100000
      hwf hn hret⟩

/-! Task state and the syscall-site patching driver (traced_task.rs).
The ptrace reads feeding the driver are oracle inputs collected in PatchCtx:
the 16 bytes at the trap rip, the value of the SYSCALL_TRAMPOLINE slot, the
proc-maps views, and whether the remote write of patch_at succeeds (the
Remote trait operations are fallible; the map_err arm of patch_syscall
handles exactly that failure). -/

/-- The TracedTask fields the patching engine reads or writes.  The identity
fields (tid, pid, ...), the task state enum and the borrowed hook table are
not modelled; the four per-process collections are the Rc-shared vectors of
the source. -/
structure TaskSt where
  in_vfork : Bool
  ldpreload_address : Option Nat
  injected_mmap_page : Option Nat
  signal_to_deliver : Option Nat
  memory_map : List (Nat × Nat)
  stub_pages : List SyscallStubPage
  patched_syscalls : List Nat
  unpatchable_syscalls : List Nat
deriving Repr, DecidableEq

/-- Model of libsystrace_load_address: read the SYSCALL_TRAMPOLINE slot
(the tramp oracle); a non-zero value yields that value rounded down to page
size, zero (or a failed read, folded into zero) yields none. -/
def libsystrace_load_address (tramp : Nat) : Option Nat :=
  if tramp % U64 ≠ 0 then some (pageOf (tramp % U64)) else none

/-- Model of task_reset (traced_task.rs lines 208-220): clear the helper
state and re-initialize unpatchable_syscalls, memory_map and stub_pages.
The source does not touch patched_syscalls. -/
def task_reset (st : TaskSt) : TaskSt :=
  { st with ldpreload_address := none,
            injected_mmap_page := some 0x70000000,
            signal_to_deliver := none,
            in_vfork := false,
            unpatchable_syscalls := [],
            memory_map := [],
            stub_pages := [] }

/-- Task created at a clone event (Task::cloned): the per-process
collections are shared with the parent, so the child observes the same
contents. -/
def task_cloned (st : TaskSt) : TaskSt :=
  { st with in_vfork := false, signal_to_deliver := none }

/-- Task created at a fork event (Task::forked): the per-process collections
are deep-copied, ldpreload_address re-read from the parent address space
(tramp oracle), the private page recorded as mapped. -/
def task_forked (st : TaskSt) (tramp : Nat) : TaskSt :=
  { st with in_vfork := false, signal_to_deliver := none,
            ldpreload_address := libsystrace_load_address tramp,
            injected_mmap_page := some 0x70000000 }

/-- Task created at a vfork event (do_ptrace_vfork): forked, then
in_vfork set. -/
def task_vforked (st : TaskSt) (tramp : Nat) : TaskSt :=
  { task_forked st tramp with in_vfork := true }

/-- The 16 bytes find_syscall_hook reads at the trap rip: two u64 peeks at
rip and rip + 8, split into little-endian bytes. -/
def bytes_at (mem : Nat → Nat) (rip : Nat) : List Nat :=
  (List.range 16).map (fun i => mem (rip + i))

/-- Model of find_syscall_hook (traced_task.rs lines 229-257): the first
catalog hook whose prologue bytes equal the prefix of that length of the 16
bytes read at rip. -/
def find_syscall_hook (hooks : List SyscallHook) (mem : Nat → Nat) (rip : Nat) :
    Option SyscallHook :=
  hooks.find? (fun h => (bytes_at mem rip).take h.instructions.length == h.instructions)

/-- Constant extended_jump_size from stubs.rs: each indirect-jump stub slot
is padded to 0x80 bytes. -/
def extended_jump_size : Nat := 0x80

/-- Constant extended_jump_pages from stubs.rs. -/
def extended_jump_pages : Nat := 2

/-- Constant two_gb of extended_jump_from_to: 2u64.wrapping_shl(30). -/
def two_gb : Nat := 2 ^ 31

/-- One 14-byte indirect jump stub (stubs.rs gen_extended_jump):
ff 25 00 00 00 00 followed by the 64-bit absolute target. -/
def gen_extended_jump (jump_address : Nat) : List Nat :=
  [0xff, 0x25, 0x00, 0x00, 0x00, 0x00] ++
    (List.range 8).map (fun k => jump_address % U64 / 2 ^ (8 * k) % 2 ^ 8)

/-- Model of gen_extended_jump_stubs (stubs.rs): one zero-padded 0x80-byte
slot per hook, targeting load base + hook offset (u64 addition). -/
def gen_extended_jump_stubs (hooks : List SyscallHook) (addr : Nat) : List Nat :=
  (hooks.map (fun h =>
    let stub := gen_extended_jump ((h.offset + addr) % U64)
    stub ++ List.replicate (extended_jump_size - stub.length) 0)).flatten

/-- Model of hook_index (traced_task.rs lines 329-339). -/
def hook_index (hooks : List SyscallHook) (curr : SyscallHook) : Option Nat :=
  hooks.findIdx? (fun h => h == curr)

/-- The reachability filter of extended_jump_from_to over allocated stub
pages. -/
def stub_page_reachable (rip : Nat) (page : SyscallStubPage) : Bool :=
  if page.address + page.size ≤ rip then decide (rip - page.address ≤ two_gb)
  else if rip ≤ page.address then
    decide (page.address + extended_jump_pages * 0x1000 - rip ≤ two_gb)
  else false

/-- Outcome of the extended-jump lookup or allocation: possibly updated
state, traced effects, and the stub slot address when one was found. -/
structure EJOut where
  st : TaskSt
  effects : List Effect
  target : Option Nat

/-- Model of allocate_extended_jumps (traced_task.rs lines 389-429): search
a gap near rip (the source passes the byte size 0x2000 as the page-count
argument of search_stub_page, and that is reproduced here), inject the
MAP_FIXED mmap, write the stub slots, re-protect to R|X and refresh the
proc-maps cache from the freshMaps oracle.  The injected mmap and mprotect
are modelled as succeeding. -/
def allocate_extended_jumps (hooks : List SyscallHook) (st : TaskSt)
    (procMaps freshMaps : List (Nat × Nat)) (rip : Nat) : EJOut :=
  match search_stub_page procMaps rip (extended_jump_pages * 0x1000) with
  | none => ⟨st, [], none⟩
  | some a =>
    match st.ldpreload_address with
    | none => ⟨st, [Effect.mmap a (extended_jump_pages * 0x1000)], none⟩
    | some preload =>
      let stubs := gen_extended_jump_stubs hooks preload
      ⟨{ st with
          stub_pages := st.stub_pages
            ++ [⟨a, extended_jump_pages * 0x1000, stubs.length⟩],
          memory_map := freshMaps },
        [Effect.mmap a (extended_jump_pages * 0x1000),
         Effect.poke a stubs,
         Effect.mprotect a (extended_jump_pages * 0x1000) (PROT_READ ||| PROT_EXEC)],
        some a⟩

/-- Model of extended_jump_from_to (traced_task.rs lines 357-383): find the
hook again, reuse a reachable stub page or allocate one, and return the slot
address page + hook index * slot size. -/
def extended_jump_from_to (hooks : List SyscallHook) (st : TaskSt)
    (procMaps freshMaps : List (Nat × Nat)) (mem : Nat → Nat) (rip : Nat) : EJOut :=
  match find_syscall_hook hooks mem rip with
  | none => ⟨st, [], none⟩
  | some hook =>
    match (st.stub_pages.find? (stub_page_reachable rip)).map (fun p => p.address) with
    | some pa =>
      match hook_index hooks hook with
      | none => ⟨st, [], none⟩
      | some k => ⟨st, [], some (pa + k * extended_jump_size)⟩
    | none =>
      let alloc := allocate_extended_jumps hooks st procMaps freshMaps rip
      match alloc.target with
      | none => ⟨alloc.st, alloc.effects, none⟩
      | some pa =>
        match hook_index hooks hook with
        | none => ⟨alloc.st, alloc.effects, none⟩
        | some k => ⟨alloc.st, alloc.effects, some (pa + k * extended_jump_size)⟩

/-- Oracle inputs of one patch_syscall run. -/
structure PatchCtx where
  mem : Nat → Nat
  tramp : Nat
  procMaps : List (Nat × Nat)
  freshMaps : List (Nat × Nat)
  io_ok : Bool

/-- Result of a patch_syscall run: final task state, traced effects, and
whether the source returned Ok. -/
structure PSOut where
  st : TaskSt
  effects : List Effect
  ok : Bool

/-- The register writes of skip_seccomp_syscall (traced_task.rs lines
770-778): set orig_rax to -1, single-step, then restore the registers. -/
def skip_seccomp_effects (regs : Regs) : List Effect :=
  [Effect.setregs { regs with orig_rax := U64 - 1 }, Effect.singlestep,
   Effect.setregs regs]

/-- The ldpreload_address refresh at the top of patch_syscall: when the
address is not yet known, re-read it through libsystrace_load_address. -/
def resolve_preload (st0 : TaskSt) (tramp : Nat) : TaskSt :=
  if st0.ldpreload_address.isNone
  then { st0 with ldpreload_address := libsystrace_load_address tramp }
  else st0

/-- The tail of patch_syscall once a hook has matched: skip the pending
syscall in the kernel, find or allocate a stub slot, run patch_at; on a
patch_at error record the site (under the post-syscall address rip) in
unpatchable_syscalls and rewind rip by 2 / restore rax from orig_rax; on
success record the site in patched_syscalls. -/
def patch_syscall_commit (hooks : List SyscallHook) (st : TaskSt) (ctx : PatchCtx)
    (regs : Regs) (rip : Nat) (hook : SyscallHook) : PSOut :=
  let skipEff := skip_seccomp_effects regs
  let ej := extended_jump_from_to hooks st ctx.procMaps ctx.freshMaps ctx.mem rip
  match ej.target with
  | none => ⟨ej.st, skipEff ++ ej.effects, false⟩
  | some target =>
    let pa := patch_at regs hook target ctx.io_ok
    if pa.2 then
      ⟨{ ej.st with patched_syscalls := ej.st.patched_syscalls ++ [rip] },
        skipEff ++ ej.effects ++ pa.1, true⟩
    else
      ⟨{ ej.st with
          unpatchable_syscalls := ej.st.unpatchable_syscalls ++ [rip] },
        skipEff ++ ej.effects ++ pa.1
          ++ [Effect.setregs { regs with
                rip := (regs.rip + U64 - 2) % U64,
                rax := regs.orig_rax }],
        false⟩

/-- The body of patch_syscall after the vfork refusal and preload refresh:
return Ok for an already patched site; return Err for a site recorded
unpatchable; look up the hook, an Err propagating immediately, before any
tracee write; otherwise commit the patch. -/
def patch_syscall_core (hooks : List SyscallHook) (st : TaskSt) (ctx : PatchCtx)
    (regs : Regs) (rip : Nat) : PSOut :=
  if st.ldpreload_address.isNone then ⟨st, [], false⟩
  else if rip ∈ st.patched_syscalls then ⟨st, [], true⟩
  else if rip ∈ st.unpatchable_syscalls then ⟨st, [], false⟩
  else
    match find_syscall_hook hooks ctx.mem rip with
    | none => ⟨st, [], false⟩
    | some hook => patch_syscall_commit hooks st ctx regs rip hook

/-- Model of patch_syscall (traced_task.rs lines 264-327), in source order:
refuse inside vfork, refresh the preload address, then run the core. -/
def patch_syscall (hooks : List SyscallHook) (st0 : TaskSt) (ctx : PatchCtx)
    (regs : Regs) (rip : Nat) : PSOut :=
  if st0.in_vfork then ⟨st0, [], false⟩
  else patch_syscall_core hooks (resolve_preload st0 ctx.tramp) ctx regs rip

theorem resolve_preload_sites (st : TaskSt) (tramp : Nat) :
    (resolve_preload st tramp).patched_syscalls = st.patched_syscalls ∧
    (resolve_preload st tramp).unpatchable_syscalls = st.unpatchable_syscalls := by
  unfold resolve_preload
  split <;> exact ⟨rfl, rfl⟩

theorem allocate_extended_jumps_sites (hooks : List SyscallHook) (st : TaskSt)
    (procMaps freshMaps : List (Nat × Nat)) (rip : Nat) :
    (allocate_extended_jumps hooks st procMaps freshMaps rip).st.patched_syscalls
      = st.patched_syscalls ∧
    (allocate_extended_jumps hooks st procMaps freshMaps rip).st.unpatchable_syscalls
      = st.unpatchable_syscalls := by
  unfold allocate_extended_jumps
  split
  · exact ⟨rfl, rfl⟩
  · split <;> exact ⟨rfl, rfl⟩

theorem extended_jump_from_to_sites (hooks : List SyscallHook) (st : TaskSt)
    (procMaps freshMaps : List (Nat × Nat)) (mem : Nat → Nat) (rip : Nat) :
    (extended_jump_from_to hooks st procMaps freshMaps mem rip).st.patched_syscalls
      = st.patched_syscalls ∧
    (extended_jump_from_to hooks st procMaps freshMaps mem rip).st.unpatchable_syscalls
      = st.unpatchable_syscalls := by
  unfold extended_jump_from_to
  dsimp only
  split
  · exact ⟨rfl, rfl⟩
  · split
    · split <;> exact ⟨rfl, rfl⟩
    · have hA := allocate_extended_jumps_sites hooks st procMaps freshMaps rip
      split
      · exact hA
      · split <;> exact hA

/-- The invariant of claim C8: a site address belongs to at most one of the
two per-process site sets. -/
def SiteInv (st : TaskSt) : Prop :=
  ∀ a, a ∈ st.patched_syscalls → a ∉ st.unpatchable_syscalls

theorem patch_syscall_commit_site_inv (hooks : List SyscallHook) (st : TaskSt)
    (ctx : PatchCtx) (regs : Regs) (rip : Nat) (hook : SyscallHook)
    (hinv : SiteInv st)
    (hp : rip ∉ st.patched_syscalls)
    (hu : rip ∉ st.unpatchable_syscalls) :
    SiteInv (patch_syscall_commit hooks st ctx regs rip hook).st := by
  have hE := extended_jump_from_to_sites hooks st ctx.procMaps ctx.freshMaps ctx.mem rip
  unfold patch_syscall_commit
  dsimp only
  split
  · intro a ha
    rw [hE.1] at ha
    rw [hE.2]
    exact hinv a ha
  · split
    · intro a ha hb
      simp only [List.mem_append, List.mem_singleton] at ha
      rw [hE.1] at ha
      rw [hE.2] at hb
      cases ha with
      | inl h => exact hinv a h hb
      | inr h => exact hu (h ▸ hb)
    · intro a ha hb
      simp only [List.mem_append, List.mem_singleton] at hb
      rw [hE.1] at ha
      rw [hE.2] at hb
      cases hb with
      | inl h => exact hinv a ha h
      | inr h => exact hp (h ▸ ha)

theorem patch_syscall_core_site_inv (hooks : List SyscallHook) (st : TaskSt)
    (ctx : PatchCtx) (regs : Regs) (rip : Nat) (hinv : SiteInv st) :
    SiteInv (patch_syscall_core hooks st ctx regs rip).st := by
  unfold patch_syscall_core
  split_ifs with h1 h2 h3
  · exact hinv
  · exact hinv
  · exact hinv
  · split
    · exact hinv
    · exact patch_syscall_commit_site_inv hooks st ctx regs rip _ hinv h2 h3

/-- C8: every operation that modifies the per-process site sets, i.e.
patch_syscall on each of its success and failure paths, task_reset at exec,
and the fork / vfork / clone task constructors, preserves the invariant
that a site address is in at most one of patched_syscalls and
unpatchable_syscalls. -/
theorem site_sets_at_most_one (hooks : List SyscallHook) (st : TaskSt)
    (ctx : PatchCtx) (regs : Regs) (rip tramp : Nat) (hinv : SiteInv st) :
    SiteInv (patch_syscall hooks st ctx regs rip).st ∧
    SiteInv (task_reset st) ∧
    SiteInv (task_forked st tramp) ∧
    SiteInv (task_vforked st tramp) ∧
    SiteInv (task_cloned st) := by
  refine ⟨?_, ?_, hinv, hinv, hinv⟩
  · unfold patch_syscall
    split
    · exact hinv
    · apply patch_syscall_core_site_inv
      intro a ha
      rw [(resolve_preload_sites st ctx.tramp).1] at ha
      rw [(resolve_preload_sites st ctx.tramp).2]
      exact hinv a ha
  · intro a _ hb
    exact absurd hb (List.not_mem_nil a)

/-- Concrete task state used by the invariant witness: sets [10], [20]. -/
def stW : TaskSt :=
  ⟨false, some 0x7f0000000000, some 0x70000000, none, [], [], [10], [20]⟩

/-- Concrete oracle inputs used by the invariant witness. -/
def ctxW : PatchCtx := ⟨fun _ => 0, 0, [], [], true⟩

/-- Concrete registers used by the invariant witness. -/
def regsW : Regs := ⟨2, 0, 0, 0, 0, 0, 0, 0, 0⟩

/-- Witness for site_sets_at_most_one at a concrete state whose sets are
[10] and [20]. -/
theorem site_sets_at_most_one_witness :
    SiteInv stW ∧
    (SiteInv (patch_syscall [] stW ctxW regsW 30).st ∧
      SiteInv (task_reset stW) ∧
      SiteInv (task_forked stW 7) ∧
      SiteInv (task_vforked stW 7) ∧
      SiteInv (task_cloned stW)) := by
  have hinv : SiteInv stW := by
    intro a ha hb
    simp only [stW, List.mem_singleton] at ha hb
    omega
  exact ⟨hinv, by
    have h := site_sets_at_most_one [] stW ctxW regsW 30 7 hinv
    exact ⟨h.1, h.2.1, h.2.2.1, h.2.2.2.1, h.2.2.2.2⟩⟩

/-- Hook catalog used by the concrete patch_syscall examples: one hook whose
prologue bytes are 77 88. -/
def exHooks : List SyscallHook := [⟨[0x77, 0x88], 0x100⟩]

/-- Tracee memory oracle of the examples: all bytes zero, so no hook
matches. -/
def exMem : Nat → Nat := fun _ => 0

/-- Oracle inputs of the examples. -/
def exCtx : PatchCtx := ⟨exMem, 0, [], [], true⟩

/-- Seccomp-stop registers of the examples: rip = 0x401002, i.e. the
syscall instruction sits at 0x401000. -/
def exRegs : Regs := ⟨0x401002, 39, 39, 0, 0, 0, 0, 0, 0⟩

/-- Task state of the no-match example: helper loaded, all sets empty. -/
def exSt : TaskSt :=
  ⟨false, some 0x7f0000000000, some 0x70000000, none, [], [], [], []⟩

/-- C2 counterexample: at a site whose bytes match no catalog hook,
patch_syscall returns the error but records nothing: the unpatchable set
stays empty — in particular rip - 2 = 0x401000 does not appear in it — and
no tracee write of any kind is performed.  The claimed recording of rip - 2
(and hence its later membership in unpatchable_sites) does not happen. -/
theorem patch_syscall_nomatch_counterexample :
    (patch_syscall exHooks exSt exCtx exRegs 0x401002).ok = false ∧
    (patch_syscall exHooks exSt exCtx exRegs 0x401002).st.unpatchable_syscalls = [] ∧
    ¬((0x401002 - 2 : Nat) ∈
      (patch_syscall exHooks exSt exCtx exRegs 0x401002).st.unpatchable_syscalls) ∧
    (patch_syscall exHooks exSt exCtx exRegs 0x401002).effects = [] := by
  refine ⟨by decide, by decide, by decide, by decide⟩

/-- C2 amended: when patch_syscall finds no catalog hook whose prologue
bytes are a prefix of the 16 bytes read at the trap rip, it returns the
NotPatchable error immediately: the task state (in particular
unpatchable_syscalls) is unchanged and no tracee memory or register write is
performed; the site is not recorded anywhere.  (Recording into
unpatchable_syscalls — under the post-syscall address rip, not rip - 2 —
happens only when patch_at itself fails after a hook did match.) -/
theorem patch_syscall_nomatch_untouched (hooks : List SyscallHook) (st : TaskSt)
    (ctx : PatchCtx) (regs : Regs) (rip : Nat)
    (hv : st.in_vfork = false)
    (hl : st.ldpreload_address.isNone = false)
    (hp : rip ∉ st.patched_syscalls)
    (hu : rip ∉ st.unpatchable_syscalls)
    (hh : find_syscall_hook hooks ctx.mem rip = none) :
    (patch_syscall hooks st ctx regs rip).ok = false ∧
    (patch_syscall hooks st ctx regs rip).st = st ∧
    (patch_syscall hooks st ctx regs rip).effects = [] := by
  have hres : resolve_preload st ctx.tramp = st := by
    unfold resolve_preload
    rw [hl]
    simp
  simp [patch_syscall, patch_syscall_core, hv, hres, hl, hp, hu, hh]

/-- Witness for patch_syscall_nomatch_untouched at the concrete no-match
example. -/
theorem patch_syscall_nomatch_untouched_witness :
    (exSt.in_vfork = false ∧ exSt.ldpreload_address.isNone = false ∧
      (0x401002 : Nat) ∉ exSt.patched_syscalls ∧
      (0x401002 : Nat) ∉ exSt.unpatchable_syscalls ∧
      find_syscall_hook exHooks exCtx.mem 0x401002 = none) ∧
    ((patch_syscall exHooks exSt exCtx exRegs 0x401002).ok = false ∧
      (patch_syscall exHooks exSt exCtx exRegs 0x401002).st = exSt ∧
      (patch_syscall exHooks exSt exCtx exRegs 0x401002).effects = []) :=
  ⟨⟨rfl, rfl, by decide, by decide, by decide⟩,
    patch_syscall_nomatch_untouched exHooks exSt exCtx exRegs 0x401002
      rfl rfl (by decide) (by decide) (by decide)⟩

/-- C7: for a site already contained in unpatchable_syscalls (and, per the
at-most-one invariant of C8, not in patched_syscalls), patch_syscall returns
an error and performs no tracee write at all: no mprotect or mmap injection,
no poke, no register write. -/
theorem patch_syscall_unpatchable_inert (hooks : List SyscallHook) (st : TaskSt)
    (ctx : PatchCtx) (regs : Regs) (rip : Nat)
    (hu : rip ∈ st.unpatchable_syscalls)
    (hp : rip ∉ st.patched_syscalls) :
    (patch_syscall hooks st ctx regs rip).ok = false ∧
    (patch_syscall hooks st ctx regs rip).effects = [] := by
  have hres := resolve_preload_sites st ctx.tramp
  unfold patch_syscall
  split
  · exact ⟨rfl, rfl⟩
  · unfold patch_syscall_core
    split_ifs with h1 h2 h3
    · exact ⟨rfl, rfl⟩
    · rw [hres.1] at h2
      exact absurd h2 hp
    · exact ⟨rfl, rfl⟩
    · rw [hres.2] at h3
      exact absurd hu h3

/-- Task state of the unpatchable-site example: 0x401002 recorded
unpatchable. -/
def exSt7 : TaskSt :=
  ⟨false, some 0x7f0000000000, some 0x70000000, none, [], [], [], [0x401002]⟩

/-- Witness for patch_syscall_unpatchable_inert at the concrete example. -/
theorem patch_syscall_unpatchable_inert_witness :
    ((0x401002 : Nat) ∈ exSt7.unpatchable_syscalls ∧
      (0x401002 : Nat) ∉ exSt7.patched_syscalls) ∧
    ((patch_syscall exHooks exSt7 exCtx exRegs 0x401002).ok = false ∧
      (patch_syscall exHooks exSt7 exCtx exRegs 0x401002).effects = []) :=
  ⟨⟨by decide, by decide⟩,
    patch_syscall_unpatchable_inert exHooks exSt7 exCtx exRegs 0x401002
      (by decide) (by decide)⟩

/-- Task state right before an exec-triggered task_reset, with one patched
and one unpatchable site on record. -/
def exStExec : TaskSt :=
  ⟨true, some 0x7f0000000000, none, some 17, [(1, 2)], [⟨1, 2, 3⟩], [0x1234], [0x555]⟩

/-- C6: task_reset clears the helper state and re-initializes memory_map,
stub_pages and unpatchable_syscalls, but it does not touch
patched_syscalls: the patched-site set survives the exec with its stale
contents, contradicting the claim that every shared per-process collection
is re-initialized to empty. -/
theorem task_reset_keeps_patched_sites :
    (task_reset exStExec).ldpreload_address = none ∧
    (task_reset exStExec).in_vfork = false ∧
    (task_reset exStExec).unpatchable_syscalls = [] ∧
    (task_reset exStExec).memory_map = [] ∧
    (task_reset exStExec).stub_pages = [] ∧
    (task_reset exStExec).patched_syscalls = [0x1234] := by
  refine ⟨rfl, rfl, rfl, rfl, rfl, rfl⟩

end Reverie
